import Mathlib

/-!
Verification of the invoice-generation pipeline (`app.py`): data model,
row normalization (`load_and_prepare_rows`), aggregation (`build_bills`),
and pricing (`Bill.subtotal_usd` / `min_charge_usd` / `total_usd`).

Modelling conventions: Python floats are modelled as rationals (`ℚ`);
`round(x, n)` is modelled as rounding `x * 10^n` to the nearest integer;
pandas cells are `Option`s (None/NaN = `none`); a numeric column cell is a
`Cell` that is either missing, a number, or non-numeric text.  String
operations (`strip`, `lower`, substring search, comparison) are modelled
character-by-character on ASCII data, matching Python semantics.
-/

/-- One cell of the numeric CBM column, before `pd.to_numeric(errors="coerce")`:
either missing (NaN), an actual number, or non-numeric text. -/
inductive Cell
  | missing
  | num (q : ℚ)
  | text (s : String)
deriving DecidableEq

/-- Result of `pd.to_numeric(errors="coerce").fillna(0.0)` on one cell:
numbers pass through, missing and non-numeric cells coerce to 0. -/
def toNumericCoerced : Cell → ℚ
  | Cell.num q => q
  | _ => 0

/-- Python `c.lower()` on one ASCII character. -/
def lowerChar (c : Char) : Char :=
  if 65 ≤ c.toNat ∧ c.toNat ≤ 90 then Char.ofNat (c.toNat + 32) else c

/-- Python `str.lower()` (ASCII range). -/
def pyLower (s : String) : String := ⟨s.data.map lowerChar⟩

/-- Whitespace characters removed by Python `str.strip()`. -/
def pyIsSpace (c : Char) : Bool :=
  c = ' ' || c = '\t' || c = '\n' || c = '\r'

/-- Python `str.strip()`: drop whitespace from both ends. -/
def pyStrip (s : String) : String :=
  ⟨((s.data.dropWhile pyIsSpace).reverse.dropWhile pyIsSpace).reverse⟩

/-- Decimal value of a run of digit characters (Python `int` of the match). -/
def digitsToNat (l : List Char) : ℕ :=
  l.foldl (fun n c => 10 * n + (c.toNat - 48)) 0

/-- The first maximal run of digits in the text, as matched by
`re.search` with a one-or-more-digits pattern. -/
def firstDigitRun : List Char → Option (List Char)
  | [] => none
  | c :: cs =>
    if c.isDigit then some (c :: cs.takeWhile Char.isDigit) else firstDigitRun cs

/-- The integer value of the first digit run of the string, if any. -/
def firstDigits (s : String) : Option ℕ := (firstDigitRun s.data).map digitsToNat

/-- Whether `needle` occurs as a contiguous substring of the character list
(Python `needle in hay`). -/
def containsSub (needle : List Char) : List Char → Bool
  | [] => needle.isEmpty
  | c :: t => needle.isPrefixOf (c :: t) || containsSub needle t

/-- Python `needle in hay` on strings. -/
def strContains (hay needle : String) : Bool := containsSub needle.data hay.data

/-- The quantity extracted by `parse_item_description`: value of the first
digit run of the stripped, lowered text, defaulting to 1. -/
def quantityOf (value : String) : ℕ :=
  (firstDigits (pyLower (pyStrip value))).getD 1

/-- The unit word chosen by `parse_item_description`: keyword search in
fixed precedence order, singular exactly when the quantity is 1. -/
def unitOf (value : String) : String :=
  let v := pyLower (pyStrip value)
  let quantity := quantityOf value
  if strContains v "pallet" then (if quantity = 1 then "PALLET" else "PALLETS")
  else if strContains v "carton" then (if quantity = 1 then "CARTON" else "CARTONS")
  else if strContains v "box" || strContains v "boxes" then
    (if quantity = 1 then "BOX" else "BOXES")
  else (if quantity = 1 then "CARTON" else "CARTONS")

/-- `parse_item_description` from `app.py`: format a column-D value such as
"1pallet" or "10" into a quantity-and-unit description. -/
def parse_item_description (value : String) : String :=
  toString (quantityOf value) ++ " " ++ unitOf value

/-- `parse_qty` from `load_and_prepare_rows`: extract the numeric part of a
quantity cell; a missing cell or a cell without digits yields 1. -/
def parse_qty (cell : Option String) : ℕ :=
  match cell with
  | none => 1
  | some s => (firstDigits (pyLower (pyStrip s))).getD 1

/-- One raw manifest row of the labelled-header layout, after the header
row has been read; absent columns show up as all-`none` fields. -/
structure RawRow where
  invoice_no : Option String
  tracking_no : Option String
  contact : Option String
  customer_name : Option String
  location : Option String
  qty_per_tracking : Option String
  cbm : Cell
  product_description : Option String
  receiving_date : Option String
deriving DecidableEq

/-- The raw sheet: its data rows, plus whether the tracking-number column
is present among the source columns at all. -/
structure RawTable where
  hasTrackingColumn : Bool
  rows : List RawRow
deriving DecidableEq

/-- One row of the `work` dataframe produced by `load_and_prepare_rows`. -/
structure NormalizedRow where
  contact : String
  customer_name : String
  location : String
  tracking_no : Option String
  cbm : ℚ
  product_description : Option String
  invoice_no : Option String
  qty : ℕ
  receiving_date : Option String
deriving DecidableEq

/-- Per-row cleaning of `load_and_prepare_rows`: defaults for missing
contact / customer name / location, numeric coercion of CBM, and quantity
parsing. -/
def normalizeRow (r : RawRow) : NormalizedRow :=
  { contact := r.contact.getD "UNKNOWN"
    customer_name := r.customer_name.getD "UNKNOWN"
    location := r.location.getD "ACCRA GHANA"
    tracking_no := r.tracking_no
    cbm := toNumericCoerced r.cbm
    product_description := r.product_description
    invoice_no := r.invoice_no
    qty := parse_qty r.qty_per_tracking
    receiving_date := r.receiving_date }

/-- `load_and_prepare_rows` from `app.py`: if the tracking column is
absent the subscript on it raises (the `if not in columns` branch is a
no-op `pass`); otherwise rows without a tracking number are dropped and
the rest are normalized. -/
def load_and_prepare_rows (t : RawTable) : Except String (List NormalizedRow) :=
  if t.hasTrackingColumn then
    Except.ok ((t.rows.filter (fun r => r.tracking_no.isSome)).map normalizeRow)
  else
    Except.error "KeyError: TRACKING N0."

/-- One line of a bill's itemized breakdown (`breakdown_items` dict). -/
structure BreakdownItem where
  tracking_number : String
  quantity : ℕ
  cbm : ℚ
deriving DecidableEq

/-- The `Bill` dataclass of `app.py`. -/
structure Bill where
  shipping_mark : String
  customer_id : Option String
  customer_name : String
  phone : String
  location : String
  total_cbm : ℚ
  rate_usd_per_cbm : ℚ
  other_cost_usd : ℚ
  item_description : String
  breakdown_items : List BreakdownItem
deriving DecidableEq

/-- The `subtotal_usd` property: rate times total volume, unconditionally. -/
def Bill.subtotal_usd (b : Bill) : ℚ := b.rate_usd_per_cbm * b.total_cbm

/-- The `min_charge_usd` property: the constant 0.0. -/
def Bill.min_charge_usd (_ : Bill) : ℚ := 0

/-- The `total_usd` property: subtotal plus the flat other cost. -/
def Bill.total_usd (b : Bill) : ℚ := b.subtotal_usd + b.other_cost_usd

/-- Python `round(q * 10^2) / 10^2`, i.e. `round(x, 2)` on the rational
model. -/
def round2 (q : ℚ) : ℚ := (round (q * 100) : ℚ) / 100

/-- Python `round(x, 3)` on the rational model. -/
def round3 (q : ℚ) : ℚ := (round (q * 1000) : ℚ) / 1000

/-- First-occurrence deduplication with an accumulator of already-seen
values (pandas `Series.unique` keeps first-seen order). -/
def uniqueFirstAux {α : Type} [DecidableEq α] (seen : List α) : List α → List α
  | [] => []
  | a :: as =>
    if a ∈ seen then uniqueFirstAux seen as
    else a :: uniqueFirstAux (a :: seen) as

/-- pandas `Series.unique`: distinct values in first-seen order. -/
def uniqueFirst {α : Type} [DecidableEq α] (l : List α) : List α :=
  uniqueFirstAux [] l

/-- Lexicographic (code-point) comparison of character lists, the order
Python uses on strings; a proper prefix sorts first. -/
def charsLe : List Char → List Char → Bool
  | [], _ => true
  | _ :: _, [] => false
  | a :: as, b :: bs => if a = b then charsLe as bs else decide (a < b)

/-- Python `<=` on strings. -/
def strLe (a b : String) : Bool := charsLe a.data b.data

/-- Propositional form of `strLe`, for use with sorting lemmas. -/
def strLeP (a b : String) : Prop := strLe a b = true

instance : DecidableRel strLeP :=
  fun a b => inferInstanceAs (Decidable (strLe a b = true))

/-- The `key=lambda b: (b.customer_name or "", b.phone or "")` comparison
used by the final `bills.sort`: lexicographic on the pair. -/
def billLe (x y : Bill) : Bool :=
  if x.customer_name = y.customer_name then strLe x.phone y.phone
  else strLe x.customer_name y.customer_name

/-- Propositional form of `billLe`. -/
def billLeP (x y : Bill) : Prop := billLe x y = true

instance : DecidableRel billLeP :=
  fun x y => inferInstanceAs (Decidable (billLe x y = true))

/-- The sorted distinct group keys that `df.groupby("CONTACT")` iterates
over (pandas sorts group keys ascending). -/
def groupKeys (rows : List NormalizedRow) : List String :=
  List.insertionSort strLeP (uniqueFirst (rows.map (fun r => r.contact)))

/-- The member rows of the group with key `k`, in source order. -/
def groupOf (rows : List NormalizedRow) (k : String) : List NormalizedRow :=
  rows.filter (fun r => r.contact == k)

/-- The groups produced by `df.groupby("CONTACT", dropna=False)`:
one `(key, member rows)` pair per distinct contact. -/
def customerGroups (rows : List NormalizedRow) : List (String × List NormalizedRow) :=
  (groupKeys rows).map (fun k => (k, groupOf rows k))

/-- One breakdown dict appended per group row: the stripped tracking
number (or the sentinel), the parsed quantity, and the volume rounded to
2 decimals. -/
def mkBreakdownItem (r : NormalizedRow) : BreakdownItem :=
  { tracking_number := match r.tracking_no with
      | some s => pyStrip s
      | none => "NO_TRACKING"
    quantity := r.qty
    cbm := round2 r.cbm }

/-- The distinct product descriptions of a group:
`dropna`, `unique`, then strip and keep the non-empty ones. -/
def productDescs (g : List NormalizedRow) : List String :=
  ((uniqueFirst (g.filterMap (fun r => r.product_description))).map pyStrip).filter
    (fun s => s ≠ "")

/-- The object of the item description: the single distinct product
description when there is exactly one, else "PERSONAL USE". -/
def descObject (descs : List String) : String :=
  match descs with
  | [d] => d
  | _ => "PERSONAL USE"

/-- First value in first-seen distinct order that differs from the default
`d`, else `d`: the name/location selection logic of `build_bills`. -/
def firstNonDefault (d : String) (l : List String) : String :=
  (((uniqueFirst l).filter (fun s => s ≠ d)).head?).getD d

/-- The body of the `build_bills` group loop: aggregate one customer
group into a `Bill`. -/
def buildBillForGroup (contact : String) (g : List NormalizedRow)
    (rate other : ℚ) : Bill :=
  let items := g.map mkBreakdownItem
  let totalQty : ℕ := (items.map (fun i => i.quantity)).sum
  let unit := if totalQty = 1 then "CARTON" else "CARTONS"
  let obj := descObject (productDescs g)
  let tns := g.filterMap (fun r => r.tracking_no)
  { shipping_mark := if tns.isEmpty then "NO_TRACKING" else String.intercalate ", " tns
    customer_id := some contact
    customer_name := firstNonDefault "UNKNOWN" (g.map (fun r => r.customer_name))
    phone := contact
    location := firstNonDefault "ACCRA GHANA" (g.map (fun r => r.location))
    total_cbm := round3 ((g.map (fun r => r.cbm)).sum)
    rate_usd_per_cbm := rate
    other_cost_usd := other
    item_description := toString totalQty ++ " " ++ unit ++ " OF " ++ obj
    breakdown_items := items }

/-- The bill list before the final sort: one bill per customer group. -/
def preSortBills (rows : List NormalizedRow) (rate other : ℚ) : List Bill :=
  (customerGroups rows).map (fun kg => buildBillForGroup kg.1 kg.2 rate other)

/-- `build_bills` from `app.py`: group by contact, aggregate each group,
then stably sort by `(customer_name, phone)`. -/
def build_bills (rows : List NormalizedRow) (rate other : ℚ) : List Bill :=
  List.insertionSort billLeP (preSortBills rows rate other)

/-- A bill with `total_cbm` just below the 0.05 threshold named by the
minimum-charge claim, at the GUI's default rate of 240. -/
def billSmall : Bill :=
  { shipping_mark := "T1"
    customer_id := some "233"
    customer_name := "A"
    phone := "233"
    location := "ACCRA GHANA"
    total_cbm := 49999 / 1000000
    rate_usd_per_cbm := 240
    other_cost_usd := 0
    item_description := "1 CARTON OF PERSONAL USE"
    breakdown_items := [] }

/-- Two normalized rows of one customer that carry the same tracking
number: the input exhibiting per-row (not per-distinct-mark) breakdown. -/
def rowsDupTracking : List NormalizedRow :=
  [{ contact := "233", customer_name := "AMA", location := "ACCRA GHANA",
     tracking_no := some "TRK1", cbm := 1, product_description := none,
     invoice_no := none, qty := 2, receiving_date := none },
   { contact := "233", customer_name := "AMA", location := "ACCRA GHANA",
     tracking_no := some "TRK1", cbm := 1, product_description := none,
     invoice_no := none, qty := 3, receiving_date := none }]

/-- Three rows of one customer, each with volume 0.004 CBM: per-item
2-decimal rounding loses 0.012 in total. -/
def rowsTinyVolumes : List NormalizedRow :=
  [{ contact := "233", customer_name := "AMA", location := "ACCRA GHANA",
     tracking_no := some "T1", cbm := 1 / 250, product_description := none,
     invoice_no := none, qty := 1, receiving_date := none },
   { contact := "233", customer_name := "AMA", location := "ACCRA GHANA",
     tracking_no := some "T2", cbm := 1 / 250, product_description := none,
     invoice_no := none, qty := 1, receiving_date := none },
   { contact := "233", customer_name := "AMA", location := "ACCRA GHANA",
     tracking_no := some "T3", cbm := 1 / 250, product_description := none,
     invoice_no := none, qty := 1, receiving_date := none }]

/-- One row with an ordinary volume, for the volume-sum witness. -/
def rowsVolumesW : List NormalizedRow :=
  [{ contact := "540789320", customer_name := "CHRISTIAN", location := "ACCRA",
     tracking_no := some "S987654321", cbm := 21 / 50, product_description := some "SHOES",
     invoice_no := some "102", qty := 1, receiving_date := none }]

/-- Three rows over two customers, for the partition witness. -/
def rowsPartitionW : List NormalizedRow :=
  [{ contact := "201698812", customer_name := "TILLY", location := "ACCRA GHANA",
     tracking_no := some "KK12345678", cbm := 9 / 50, product_description := none,
     invoice_no := none, qty := 1, receiving_date := none },
   { contact := "540789320", customer_name := "CHRISTIAN", location := "ACCRA",
     tracking_no := some "S987654321", cbm := 21 / 50, product_description := none,
     invoice_no := none, qty := 1, receiving_date := none },
   { contact := "540789320", customer_name := "CHRISTIAN", location := "ACCRA",
     tracking_no := some "S999888777", cbm := 7 / 50, product_description := none,
     invoice_no := none, qty := 4, receiving_date := none }]

/-- Two rows with the same customer name but different contacts, for the
sort-stability witness. -/
def rowsSortW : List NormalizedRow :=
  [{ contact := "1", customer_name := "AMA", location := "ACCRA GHANA",
     tracking_no := some "U1", cbm := 1, product_description := none,
     invoice_no := none, qty := 1, receiving_date := none },
   { contact := "2", customer_name := "AMA", location := "ACCRA GHANA",
     tracking_no := some "U2", cbm := 1, product_description := none,
     invoice_no := none, qty := 1, receiving_date := none }]

/-- A single-row input for the customer-id witness. -/
def rowsIdW : List NormalizedRow :=
  [{ contact := "0202425612", customer_name := "BLESSING", location := "KUMASI",
     tracking_no := some "V77", cbm := 1 / 2, product_description := none,
     invoice_no := none, qty := 1, receiving_date := none }]

/-- A two-row customer group with a single distinct product description,
for the item-description witness. -/
def groupSingleDesc : List NormalizedRow :=
  [{ contact := "540789320", customer_name := "CHRISTIAN", location := "ACCRA",
     tracking_no := some "S987654321", cbm := 21 / 50, product_description := some "SHOES",
     invoice_no := none, qty := 1, receiving_date := none },
   { contact := "540789320", customer_name := "CHRISTIAN", location := "ACCRA",
     tracking_no := some "S999888777", cbm := 7 / 50, product_description := some "SHOES",
     invoice_no := none, qty := 4, receiving_date := none }]

/-- A raw sheet whose volume cell holds a negative number. -/
def tableNegativeCbm : RawTable :=
  { hasTrackingColumn := true
    rows := [{ invoice_no := none, tracking_no := some "TRK9", contact := some "233",
               customer_name := some "AMA", location := none,
               qty_per_tracking := some "1", cbm := Cell.num (-1),
               product_description := none, receiving_date := none }] }

/-- A raw sheet with a missing volume cell and a non-numeric one. -/
def tableNonNegW : RawTable :=
  { hasTrackingColumn := true
    rows := [{ invoice_no := none, tracking_no := some "TRK1", contact := some "233",
               customer_name := none, location := none,
               qty_per_tracking := none, cbm := Cell.missing,
               product_description := none, receiving_date := none },
             { invoice_no := none, tracking_no := some "TRK2", contact := some "233",
               customer_name := some "AMA", location := some "ACCRA",
               qty_per_tracking := some "2 boxes", cbm := Cell.text "n/a",
               product_description := none, receiving_date := none }] }

/-- A raw sheet that lacks the tracking-number column entirely. -/
def tableNoTrackingCol : RawTable :=
  { hasTrackingColumn := false
    rows := [{ invoice_no := none, tracking_no := none, contact := some "233",
               customer_name := some "AMA", location := some "ACCRA",
               qty_per_tracking := some "1", cbm := Cell.num 1,
               product_description := none, receiving_date := none }] }

/-- A labelled-layout sheet with one row lacking a tracking number and one
row with every identity cell missing. -/
def tableLabelledW : RawTable :=
  { hasTrackingColumn := true
    rows := [{ invoice_no := some "101", tracking_no := none, contact := some "201698812",
               customer_name := some "TILLY", location := some "ACCRA GHANA",
               qty_per_tracking := some "1pallet", cbm := Cell.num (9 / 50),
               product_description := some "LEARNING MACHINE", receiving_date := none },
             { invoice_no := none, tracking_no := some "S987654321", contact := none,
               customer_name := none, location := none,
               qty_per_tracking := none, cbm := Cell.missing,
               product_description := none, receiving_date := none }] }

-- Theorems start here.

/-- C1: the minimum-charge rule (variant A) does not hold in the code:
`Bill.subtotal_usd` and `Bill.min_charge_usd` ignore the 0.05 threshold.
At `total_cbm = 0.049999` and rate 240 the subtotal is 11.99976, not the
fixed 10.00, and `min_charge_usd` is 0.00, not 10.00. -/
theorem C1_counterexample :
    billSmall.total_cbm < 1 / 20 ∧
    ¬ billSmall.subtotal_usd = 10 ∧ ¬ billSmall.min_charge_usd = 10 := by
  refine ⟨by norm_num [billSmall], ?_, ?_⟩
  · show ¬ (240 : ℚ) * (49999 / 1000000) = 10
    norm_num
  · show ¬ (0 : ℚ) = 10
    norm_num

/-- C1 (amended): the code implements the no-minimum policy (variant B):
for every bill, `subtotal_usd = rate_usd_per_cbm * total_cbm` with no
threshold, `min_charge_usd` is always 0.00, and
`total_usd = subtotal_usd + other_cost_usd`; in particular at the
boundary `total_cbm = 0.05` the subtotal is `rate * 0.05` exactly. -/
theorem C1_amended (b : Bill) :
    b.subtotal_usd = b.rate_usd_per_cbm * b.total_cbm ∧
    b.min_charge_usd = 0 ∧
    b.total_usd = b.rate_usd_per_cbm * b.total_cbm + b.other_cost_usd ∧
    (b.total_cbm = 1 / 20 → b.subtotal_usd = b.rate_usd_per_cbm * (1 / 20)) :=
  ⟨rfl, rfl, rfl, fun h => by rw [Bill.subtotal_usd, h]⟩

/-- C1 (amended) witness at a concrete bill, including the boundary case
`total_cbm = 0.05`. -/
theorem C1_amended_witness :
    billSmall.subtotal_usd = billSmall.rate_usd_per_cbm * billSmall.total_cbm ∧
    billSmall.min_charge_usd = 0 ∧
    ({ billSmall with total_cbm := 1 / 20 } : Bill).subtotal_usd =
      ({ billSmall with total_cbm := 1 / 20 } : Bill).rate_usd_per_cbm * (1 / 20) :=
  ⟨(C1_amended billSmall).1, (C1_amended billSmall).2.1,
    (C1_amended { billSmall with total_cbm := 1 / 20 }).2.2.2 rfl⟩

/-- C3: the quantity parser always returns a value: the quantity is the
first run of digits of the (stripped, lowered) text, defaulting to 1 when
there are none; the unit is chosen by fixed keyword precedence
pallet → carton → box → default carton, singular exactly when the
quantity is 1; `parse_qty` extracts the same quantity; and the four
documented examples hold. -/
theorem C3_quantity_unit :
    (∀ v : String, parse_item_description v = toString (quantityOf v) ++ " " ++ unitOf v) ∧
    (∀ v : String, firstDigits (pyLower (pyStrip v)) = none → quantityOf v = 1) ∧
    (∀ s : String, parse_qty (some s) = quantityOf s) ∧
    (parse_qty none = 1) ∧
    (∀ v : String, strContains (pyLower (pyStrip v)) "pallet" = true →
      unitOf v = (if quantityOf v = 1 then "PALLET" else "PALLETS")) ∧
    (∀ v : String, strContains (pyLower (pyStrip v)) "pallet" = false →
      strContains (pyLower (pyStrip v)) "carton" = true →
      unitOf v = (if quantityOf v = 1 then "CARTON" else "CARTONS")) ∧
    (∀ v : String, strContains (pyLower (pyStrip v)) "pallet" = false →
      strContains (pyLower (pyStrip v)) "carton" = false →
      strContains (pyLower (pyStrip v)) "box" = true →
      unitOf v = (if quantityOf v = 1 then "BOX" else "BOXES")) ∧
    (∀ v : String, strContains (pyLower (pyStrip v)) "pallet" = false →
      strContains (pyLower (pyStrip v)) "carton" = false →
      strContains (pyLower (pyStrip v)) "box" = false →
      strContains (pyLower (pyStrip v)) "boxes" = false →
      unitOf v = (if quantityOf v = 1 then "CARTON" else "CARTONS")) ∧
    (∀ v : String, quantityOf v = 1 ↔
      unitOf v = "PALLET" ∨ unitOf v = "CARTON" ∨ unitOf v = "BOX") ∧
    parse_item_description "1pallet" = "1 PALLET" ∧
    parse_item_description "4" = "4 CARTONS" ∧
    parse_item_description "2 boxes" = "2 BOXES" ∧
    parse_item_description "" = "1 CARTON" := by
  refine ⟨fun v => rfl, ?_, fun s => rfl, rfl, ?_, ?_, ?_, ?_, ?_, ?_, ?_, ?_, ?_⟩
  · intro v h
    simp [quantityOf, h]
  · intro v h
    simp [unitOf, h]
  · intro v h1 h2
    simp [unitOf, h1, h2]
  · intro v h1 h2 h3
    simp [unitOf, h1, h2, h3]
  · intro v h1 h2 h3 h4
    simp [unitOf, h1, h2, h3, h4]
  · intro v
    unfold unitOf
    constructor
    · intro h
      simp only [h]
      split
      · exact Or.inl rfl
      · split
        · exact Or.inr (Or.inl rfl)
        · split
          · exact Or.inr (Or.inr rfl)
          · exact Or.inr (Or.inl rfl)
    · intro h
      by_contra hq
      simp only [if_neg hq] at h
      rcases h with h | h | h <;> repeat' split at h
      all_goals exact absurd h (by decide)
  · decide
  · decide
  · decide
  · decide

/-- C3 witness: a digit-free cell defaults to quantity 1, instantiating
the default-quantity clause at the text "abc". -/
theorem C3_quantity_unit_witness : quantityOf "abc" = 1 :=
  C3_quantity_unit.2.1 "abc" (by decide)

/-- The code-point order on character lists is total. -/
theorem charsLe_total (a b : List Char) : charsLe a b = true ∨ charsLe b a = true := by
  induction a generalizing b with
  | nil => exact Or.inl rfl
  | cons x xs ih =>
    cases b with
    | nil => exact Or.inr rfl
    | cons y ys =>
      by_cases hxy : x = y
      · subst hxy
        simpa [charsLe] using ih ys
      · rcases lt_or_gt_of_ne hxy with h | h
        · left
          simp [charsLe, hxy, h]
        · right
          simp [charsLe, Ne.symm hxy, h]

/-- The code-point order on character lists is transitive. -/
theorem charsLe_trans {a b c : List Char} (hab : charsLe a b = true)
    (hbc : charsLe b c = true) : charsLe a c = true := by
  induction a generalizing b c with
  | nil => rfl
  | cons x xs ih =>
    cases b with
    | nil => simp [charsLe] at hab
    | cons y ys =>
      cases c with
      | nil => simp [charsLe] at hbc
      | cons z zs =>
        simp only [charsLe] at hab hbc ⊢
        by_cases hxy : x = y <;> by_cases hyz : y = z
        · subst hxy; subst hyz
          rw [if_pos rfl] at hab hbc ⊢
          exact ih hab hbc
        · subst hxy
          rw [if_pos rfl] at hab
          rw [if_neg hyz] at hbc ⊢
          exact hbc
        · subst hyz
          rw [if_neg hxy] at hab ⊢
          rw [if_pos rfl] at hbc
          exact hab
        · rw [if_neg hxy] at hab
          rw [if_neg hyz] at hbc
          have hx : x < y := of_decide_eq_true hab
          have hy : y < z := of_decide_eq_true hbc
          have hxz : x < z := lt_trans hx hy
          rw [if_neg (ne_of_lt hxz)]
          exact decide_eq_true hxz

/-- The code-point order on character lists is antisymmetric. -/
theorem charsLe_antisymm {a b : List Char} (hab : charsLe a b = true)
    (hba : charsLe b a = true) : a = b := by
  induction a generalizing b with
  | nil =>
    cases b with
    | nil => rfl
    | cons y ys => simp [charsLe] at hba
  | cons x xs ih =>
    cases b with
    | nil => simp [charsLe] at hab
    | cons y ys =>
      simp only [charsLe] at hab hba
      by_cases hxy : x = y
      · subst hxy
        rw [if_pos rfl] at hab hba
        rw [ih hab hba]
      · rw [if_neg hxy] at hab
        rw [if_neg (Ne.symm hxy)] at hba
        exact absurd (of_decide_eq_true hba) (lt_asymm (of_decide_eq_true hab))

/-- Totality of the Python string order. -/
theorem strLe_total (a b : String) : strLeP a b ∨ strLeP b a :=
  charsLe_total a.data b.data

/-- Transitivity of the Python string order. -/
theorem strLe_trans {a b c : String} (h1 : strLeP a b) (h2 : strLeP b c) :
    strLeP a c :=
  charsLe_trans h1 h2

/-- Antisymmetry of the Python string order. -/
theorem strLe_antisymm {a b : String} (h1 : strLeP a b) (h2 : strLeP b a) :
    a = b := by
  cases a with
  | mk la =>
    cases b with
    | mk lb => exact congrArg String.mk (charsLe_antisymm h1 h2)

/-- The `(customer_name, phone)` bill comparison is total. -/
theorem billLe_total (x y : Bill) : billLeP x y ∨ billLeP y x := by
  simp only [billLeP, billLe]
  by_cases h : x.customer_name = y.customer_name
  · rw [if_pos h, if_pos h.symm]
    exact strLe_total x.phone y.phone
  · rw [if_neg h, if_neg (Ne.symm h)]
    exact strLe_total x.customer_name y.customer_name

/-- The `(customer_name, phone)` bill comparison is transitive. -/
theorem billLe_trans {x y z : Bill} (h1 : billLeP x y) (h2 : billLeP y z) :
    billLeP x z := by
  simp only [billLeP, billLe] at h1 h2 ⊢
  by_cases hxy : x.customer_name = y.customer_name <;>
    by_cases hyz : y.customer_name = z.customer_name
  · rw [if_pos hxy] at h1
    rw [if_pos hyz] at h2
    rw [if_pos (hxy.trans hyz)]
    exact strLe_trans h1 h2
  · rw [if_pos hxy] at h1
    rw [if_neg hyz] at h2
    rw [if_neg (fun hh : x.customer_name = z.customer_name => hyz (hxy.symm.trans hh)), hxy]
    exact h2
  · rw [if_neg hxy] at h1
    rw [if_pos hyz] at h2
    rw [if_neg (fun hh : x.customer_name = z.customer_name => hxy (hh.trans hyz.symm)), ← hyz]
    exact h1
  · rw [if_neg hxy] at h1
    rw [if_neg hyz] at h2
    by_cases hxz : x.customer_name = z.customer_name
    · exact absurd (strLe_antisymm h1 (hxz ▸ h2)) hxy
    · rw [if_neg hxz]
      exact strLe_trans h1 h2

/-- Membership in the accumulator-based first-occurrence dedup. -/
theorem mem_uniqueFirstAux {α : Type} [DecidableEq α] {a : α} (seen l : List α) :
    a ∈ uniqueFirstAux seen l ↔ a ∈ l ∧ a ∉ seen := by
  induction l generalizing seen with
  | nil => simp [uniqueFirstAux]
  | cons x xs ih =>
    simp only [uniqueFirstAux]
    split
    · rename_i hx
      rw [ih]
      simp only [List.mem_cons]
      constructor
      · exact fun h => ⟨Or.inr h.1, h.2⟩
      · rintro ⟨rfl | h1, h2⟩
        · exact absurd hx h2
        · exact ⟨h1, h2⟩
    · rename_i hx
      simp only [List.mem_cons, ih, List.mem_cons, not_or]
      constructor
      · rintro (rfl | ⟨h1, h2, h3⟩)
        · exact ⟨Or.inl rfl, hx⟩
        · exact ⟨Or.inr h1, h3⟩
      · rintro ⟨rfl | h1, h2⟩
        · exact Or.inl rfl
        · rcases eq_or_ne a x with rfl | hax
          · exact Or.inl rfl
          · exact Or.inr ⟨h1, hax, h2⟩

/-- The first-occurrence dedup has no duplicates. -/
theorem nodup_uniqueFirstAux {α : Type} [DecidableEq α] (seen l : List α) :
    (uniqueFirstAux seen l).Nodup := by
  induction l generalizing seen with
  | nil => exact List.nodup_nil
  | cons x xs ih =>
    simp only [uniqueFirstAux]
    split
    · exact ih seen
    · refine List.nodup_cons.mpr ⟨?_, ih (x :: seen)⟩
      intro hx
      exact ((mem_uniqueFirstAux (x :: seen) xs).mp hx).2 (List.mem_cons_self x seen)

/-- `uniqueFirst` preserves membership. -/
theorem mem_uniqueFirst {α : Type} [DecidableEq α] {a : α} (l : List α) :
    a ∈ uniqueFirst l ↔ a ∈ l := by
  simp [uniqueFirst, mem_uniqueFirstAux]

/-- `uniqueFirst` has no duplicates. -/
theorem nodup_uniqueFirst {α : Type} [DecidableEq α] (l : List α) :
    (uniqueFirst l).Nodup :=
  nodup_uniqueFirstAux [] l

/-- A contact is a group key exactly when some row carries it. -/
theorem mem_groupKeys {rows : List NormalizedRow} {k : String} :
    k ∈ groupKeys rows ↔ k ∈ rows.map (fun r => r.contact) := by
  rw [groupKeys, (List.perm_insertionSort strLeP _).mem_iff]
  exact mem_uniqueFirst _

/-- The group keys are pairwise distinct. -/
theorem nodup_groupKeys (rows : List NormalizedRow) : (groupKeys rows).Nodup :=
  ((List.perm_insertionSort strLeP _).nodup_iff).mpr (nodup_uniqueFirst _)

/-- Filtering a list by each key of a duplicate-free covering key list and
concatenating yields a permutation of the list. -/
theorem flatten_filter_perm {α κ : Type} [DecidableEq κ] (key : α → κ) :
    ∀ (keys : List κ) (l : List α), keys.Nodup → (∀ a ∈ l, key a ∈ keys) →
      ((keys.map (fun k => l.filter (fun a => key a == k))).flatten).Perm l := by
  intro keys
  induction keys with
  | nil =>
    intro l _ hcov
    have hl : l = [] :=
      List.eq_nil_iff_forall_not_mem.mpr fun a ha => by simpa using hcov a ha
    subst hl
    exact List.Perm.refl _
  | cons k ks ih =>
    intro l hnd hcov
    simp only [List.map_cons, List.flatten_cons]
    have hks : ks.map (fun k2 => l.filter (fun a => key a == k2)) =
        ks.map (fun k2 => (l.filter (fun a => !(key a == k))).filter
          (fun a => key a == k2)) := by
      apply List.map_congr_left
      intro k2 hk2
      rw [List.filter_filter]
      apply List.filter_congr
      intro a _
      by_cases h : key a = k2
      · have hkk : key a ≠ k := by
          intro hh
          exact (List.nodup_cons.mp hnd).1 ((h.symm.trans hh) ▸ hk2)
        have hk2k : ¬ k2 = k := fun hh => hkk (h.trans hh)
        simp [h, hkk, hk2k]
      · simp [h]
    rw [hks]
    have hcov2 : ∀ a ∈ l.filter (fun a => !(key a == k)), key a ∈ ks := by
      intro a ha
      rcases List.mem_filter.mp ha with ⟨hal, hne⟩
      rcases List.mem_cons.mp (hcov a hal) with h | h
      · simp [h] at hne
      · exact h
    have hperm := ih (l.filter (fun a => !(key a == k)))
      (List.nodup_cons.mp hnd).2 hcov2
    exact List.Perm.trans (hperm.append_left _) (List.filter_append_perm _ l)

/-- The member lists of the customer groups concatenate to a permutation
of the input rows. -/
theorem customerGroups_flatten_perm (rows : List NormalizedRow) :
    (((customerGroups rows).map (fun kg => kg.2)).flatten).Perm rows := by
  have h := flatten_filter_perm (fun r : NormalizedRow => r.contact)
    (groupKeys rows) rows (nodup_groupKeys rows)
    (fun r hr => mem_groupKeys.mpr (List.mem_map_of_mem _ hr))
  simpa [customerGroups, groupOf, List.map_map, Function.comp] using h

/-- A bill is in the output of `build_bills` exactly when it is the
aggregate of one of the customer groups. -/
theorem mem_build_bills {rows : List NormalizedRow} {rate other : ℚ} {b : Bill} :
    b ∈ build_bills rows rate other ↔
      ∃ k ∈ groupKeys rows, b = buildBillForGroup k (groupOf rows k) rate other := by
  rw [build_bills, (List.perm_insertionSort billLeP _).mem_iff, preSortBills,
    customerGroups, List.map_map]
  simp only [List.mem_map, Function.comp]
  constructor
  · rintro ⟨k, hk, rfl⟩
    exact ⟨k, hk, rfl⟩
  · rintro ⟨k, hk, rfl⟩
    exact ⟨k, hk, rfl⟩

/-- C5: grouping is a partition: the groups' member lists concatenate to a
permutation of the input rows, every row lies in exactly one customer
group (hence contributes to exactly one bill, as each group yields one
bill), and each group has exactly one key, the keys being pairwise
distinct. -/
theorem C5_partition (rows : List NormalizedRow) :
    ((((customerGroups rows).map (fun kg => kg.2)).flatten).Perm rows) ∧
    (∀ r ∈ rows,
      ((customerGroups rows).filter (fun kg => decide (r ∈ kg.2))).length = 1) ∧
    (((customerGroups rows).map (fun kg => kg.1)).Nodup) ∧
    (∀ rate other : ℚ,
      (build_bills rows rate other).length = (customerGroups rows).length) := by
  refine ⟨customerGroups_flatten_perm rows, ?_, ?_, ?_⟩
  · intro r hr
    rw [customerGroups, ← List.countP_eq_length_filter, List.countP_map]
    have h1 : ∀ k ∈ groupKeys rows,
        ((fun kg : String × List NormalizedRow => decide (r ∈ kg.2)) ∘
          (fun k => (k, groupOf rows k))) k = true ↔ (k == r.contact) = true := by
      intro k _
      simp only [Function.comp]
      by_cases h : r.contact = k
      · simp [groupOf, List.mem_filter, hr, h]
      · have h2 : ¬ k = r.contact := fun hh => h hh.symm
        simp [groupOf, List.mem_filter, h, h2]
    rw [List.countP_congr h1]
    exact List.count_eq_one_of_mem (nodup_groupKeys rows)
      (mem_groupKeys.mpr (List.mem_map_of_mem _ hr))
  · have h : (customerGroups rows).map (fun kg => kg.1) = groupKeys rows := by
      rw [customerGroups, List.map_map]
      show List.map id (groupKeys rows) = groupKeys rows
      exact List.map_id _
    rw [h]
    exact nodup_groupKeys rows
  · intro rate other
    rw [build_bills, (List.perm_insertionSort billLeP _).length_eq, preSortBills,
      List.length_map]

/-- C5 witness: in a concrete three-row input over two customers, the
first row lies in exactly one customer group. -/
theorem C5_partition_witness :
    ((customerGroups rowsPartitionW).filter (fun kg => decide
      (({ contact := "201698812", customer_name := "TILLY", location := "ACCRA GHANA",
          tracking_no := some "KK12345678", cbm := 9 / 50, product_description := none,
          invoice_no := none, qty := 1, receiving_date := none } : NormalizedRow)
        ∈ kg.2))).length = 1 :=
  (C5_partition rowsPartitionW).2.1 _ (List.mem_cons_self _ _)

/-- C7: the final bill list is the stable ascending sort of the per-group
bills by the case-sensitive key `(customer_name, phone)`: it is a
permutation of the unsorted bills, sorted under the key comparison, any
key-ordered subsequence of the unsorted bills survives as a subsequence
(stability, hence deterministic relative order for equal primary keys),
the comparison is exactly lexicographic on `(customer_name, phone)`, and
the empty string sorts first. -/
theorem C7_sorted (rows : List NormalizedRow) (rate other : ℚ) :
    List.Sorted billLeP (build_bills rows rate other) ∧
    (build_bills rows rate other).Perm (preSortBills rows rate other) ∧
    (∀ c : List Bill, c.Pairwise billLeP → c.Sublist (preSortBills rows rate other) →
      c.Sublist (build_bills rows rate other)) ∧
    (∀ x y : Bill, billLeP x y ↔
      (if x.customer_name = y.customer_name then strLeP x.phone y.phone
       else strLeP x.customer_name y.customer_name)) ∧
    (∀ s : String, strLeP "" s) := by
  refine ⟨?_, List.perm_insertionSort billLeP _, ?_, ?_, fun s => rfl⟩
  · exact @List.sorted_insertionSort Bill billLeP _ ⟨billLe_total⟩
      ⟨fun _ _ _ h1 h2 => billLe_trans h1 h2⟩ _
  · intro c hc hs
    exact List.sublist_insertionSort hc hs
  · intro x y
    by_cases h : x.customer_name = y.customer_name <;>
      simp [billLeP, billLe, strLeP, h]

/-- C7 witness: for two bills sharing a customer name but with different
phones, the key-ordered pre-sort list survives the final sort as a
subsequence. -/
theorem C7_sorted_witness :
    (preSortBills rowsSortW 240 0).Sublist (build_bills rowsSortW 240 0) :=
  (C7_sorted rowsSortW 240 0).2.2.1 (preSortBills rowsSortW 240 0)
    (by decide) (List.Sublist.refl _)

/-- C10: every bill output by `build_bills` has `customer_id` equal to
`some` of its phone, hence never null, and the phone is the string form
of the group's CONTACT key, one of the input rows' contacts. -/
theorem C10_customer_id (rows : List NormalizedRow) (rate other : ℚ) (b : Bill)
    (hb : b ∈ build_bills rows rate other) :
    b.customer_id = some b.phone ∧ b.customer_id ≠ none ∧
      b.phone ∈ rows.map (fun r => r.contact) := by
  rcases mem_build_bills.mp hb with ⟨k, hk, rfl⟩
  exact ⟨rfl, fun h => Option.noConfusion h, mem_groupKeys.mp hk⟩

/-- C10 witness: the single bill of a one-row input carries its contact
as both `customer_id` and `phone`. -/
theorem C10_customer_id_witness :
    (buildBillForGroup "0202425612" (groupOf rowsIdW "0202425612") 240 0).customer_id =
      some (buildBillForGroup "0202425612" (groupOf rowsIdW "0202425612") 240 0).phone :=
  (C10_customer_id rowsIdW 240 0 _
    (mem_build_bills.mpr ⟨"0202425612", by decide, rfl⟩)).1

/-- C2: the claim fails: when one customer group contains two rows with
the same tracking mark, the bill's breakdown holds one entry per ROW, so
the marks repeat (not one entry per distinct mark), and `shipping_mark`
joins the repeated values instead of the distinct set. -/
theorem C2_counterexample :
    ∃ b ∈ build_bills rowsDupTracking 240 0,
      ¬ (b.breakdown_items.map (fun i => i.tracking_number)).Nodup ∧
      b.shipping_mark ≠ "TRK1" := by
  refine ⟨buildBillForGroup "233" (groupOf rowsDupTracking "233") 240 0,
    mem_build_bills.mpr ⟨"233", by decide, rfl⟩, by decide, by decide⟩

/-- C2 (amended): each bill's breakdown has exactly one entry per group
row, in group order: the entry carries that row's stripped tracking number
(sentinel "NO_TRACKING" when null), that row's parsed quantity and that
row's volume rounded to 2 decimals; the bill's `shipping_mark` is the
comma-join of all the group's non-null tracking values in row order,
duplicates included, or the sentinel "NO_TRACKING" when there are none. -/
theorem C2_amended (rows : List NormalizedRow) (rate other : ℚ) (b : Bill)
    (hb : b ∈ build_bills rows rate other) :
    ∃ k ∈ groupKeys rows,
      b.breakdown_items = (groupOf rows k).map mkBreakdownItem ∧
      (∀ i ∈ b.breakdown_items, ∃ r ∈ groupOf rows k,
        i.tracking_number = (match r.tracking_no with
          | some s => pyStrip s
          | none => "NO_TRACKING") ∧
        i.quantity = r.qty ∧ i.cbm = round2 r.cbm) ∧
      b.shipping_mark =
        (if ((groupOf rows k).filterMap (fun r => r.tracking_no)).isEmpty
         then "NO_TRACKING"
         else String.intercalate ", "
           ((groupOf rows k).filterMap (fun r => r.tracking_no))) := by
  rcases mem_build_bills.mp hb with ⟨k, hk, rfl⟩
  refine ⟨k, hk, rfl, ?_, rfl⟩
  intro i hi
  rcases List.mem_map.mp hi with ⟨r, hr, rfl⟩
  exact ⟨r, hr, rfl, rfl, rfl⟩

/-- C2 (amended) witness at the duplicate-tracking input. -/
theorem C2_amended_witness :
    ∃ k ∈ groupKeys rowsDupTracking,
      (buildBillForGroup "233" (groupOf rowsDupTracking "233") 240 0).breakdown_items =
        (groupOf rowsDupTracking k).map mkBreakdownItem ∧
      (∀ i ∈ (buildBillForGroup "233" (groupOf rowsDupTracking "233") 240 0).breakdown_items,
        ∃ r ∈ groupOf rowsDupTracking k,
          i.tracking_number = (match r.tracking_no with
            | some s => pyStrip s
            | none => "NO_TRACKING") ∧
          i.quantity = r.qty ∧ i.cbm = round2 r.cbm) ∧
      (buildBillForGroup "233" (groupOf rowsDupTracking "233") 240 0).shipping_mark =
        (if ((groupOf rowsDupTracking k).filterMap (fun r => r.tracking_no)).isEmpty
         then "NO_TRACKING"
         else String.intercalate ", "
           ((groupOf rowsDupTracking k).filterMap (fun r => r.tracking_no))) :=
  C2_amended rowsDupTracking 240 0 _ (mem_build_bills.mpr ⟨"233", by decide, rfl⟩)

/-- Rounding to 2 decimals moves a rational by at most 1/200. -/
theorem abs_round2_sub (q : ℚ) : |round2 q - q| ≤ 1 / 200 := by
  have h := abs_sub_round (q * 100)
  rw [abs_sub_comm] at h
  have h2 : round2 q - q = ((round (q * 100) : ℚ) - q * 100) / 100 := by
    rw [round2]
    ring
  rw [h2, abs_div]
  rw [show |(100 : ℚ)| = 100 from by norm_num]
  linarith

/-- Rounding to 3 decimals moves a rational by at most 1/2000. -/
theorem abs_round3_sub (q : ℚ) : |round3 q - q| ≤ 1 / 2000 := by
  have h := abs_sub_round (q * 1000)
  rw [abs_sub_comm] at h
  have h2 : round3 q - q = ((round (q * 1000) : ℚ) - q * 1000) / 1000 := by
    rw [round3]
    ring
  rw [h2, abs_div]
  rw [show |(1000 : ℚ)| = 1000 from by norm_num]
  linarith

/-- Summing per-element 2-decimal roundings moves a list sum by at most
1/200 per element. -/
theorem abs_sum_round2_sub (l : List ℚ) :
    |(l.map round2).sum - l.sum| ≤ (l.length : ℚ) * (1 / 200) := by
  induction l with
  | nil => simp
  | cons x xs ih =>
    simp only [List.map_cons, List.sum_cons, List.length_cons]
    have h1 := abs_round2_sub x
    have h3 : |round2 x + (xs.map round2).sum - (x + xs.sum)| =
        |(round2 x - x) + ((xs.map round2).sum - xs.sum)| := by
      congr 1
      ring
    rw [h3]
    have h4 := abs_add (round2 x - x) ((xs.map round2).sum - xs.sum)
    push_cast
    linarith

/-- C4: the claim fails: a bill of three rows with volume 0.004 each has
per-item volumes that round to 0.00 while `total_cbm` is 0.012, a gap of
0.012 exceeding the claimed 0.01 tolerance. -/
theorem C4_counterexample :
    ∃ b ∈ build_bills rowsTinyVolumes 240 0,
      1 / 100 < |(b.breakdown_items.map (fun i => i.cbm)).sum - b.total_cbm| := by
  refine ⟨buildBillForGroup "233" (groupOf rowsTinyVolumes "233") 240 0,
    mem_build_bills.mpr ⟨"233", by decide, rfl⟩, ?_⟩
  show 1 / 100 < |(round2 (1 / 250) + (round2 (1 / 250) + (round2 (1 / 250) + 0))) -
      round3 (1 / 250 + (1 / 250 + (1 / 250 + 0)))|
  have h2 : round2 (1 / 250) = 0 := by
    rw [round2]
    norm_num [round_eq]
  have h3 : round3 (1 / 250 + (1 / 250 + (1 / 250 + 0))) = 3 / 250 := by
    rw [round3]
    norm_num [round_eq]
  rw [h2, h3]
  rw [show (0 : ℚ) + (0 + (0 + 0)) - 3 / 250 = -(3 / 250) from by norm_num,
    abs_neg, abs_of_pos (by norm_num : (0 : ℚ) < 3 / 250)]
  norm_num

/-- C4 (amended): for every bill, the sum of the breakdown items' volumes
differs from `total_cbm` by at most n * 0.005 + 0.0005 where n is the
number of breakdown items (each item volume is rounded to 2 decimals and
the total to 3); the fixed 0.01 tolerance only holds for small n. -/
theorem C4_amended (rows : List NormalizedRow) (rate other : ℚ) (b : Bill)
    (hb : b ∈ build_bills rows rate other) :
    |(b.breakdown_items.map (fun i => i.cbm)).sum - b.total_cbm| ≤
      (b.breakdown_items.length : ℚ) * (1 / 200) + 1 / 2000 := by
  rcases mem_build_bills.mp hb with ⟨k, hk, rfl⟩
  have hmap : ((buildBillForGroup k (groupOf rows k) rate other).breakdown_items.map
      (fun i => i.cbm)) = ((groupOf rows k).map (fun r => r.cbm)).map round2 := by
    show (((groupOf rows k).map mkBreakdownItem).map (fun i => i.cbm)) = _
    rw [List.map_map, List.map_map]
    rfl
  have hlen : (buildBillForGroup k (groupOf rows k) rate other).breakdown_items.length =
      ((groupOf rows k).map (fun r => r.cbm)).length := by
    show ((groupOf rows k).map mkBreakdownItem).length = _
    rw [List.length_map, List.length_map]
  have htot : (buildBillForGroup k (groupOf rows k) rate other).total_cbm =
      round3 (((groupOf rows k).map (fun r => r.cbm)).sum) := rfl
  rw [hmap, hlen, htot]
  have h1 := abs_sum_round2_sub ((groupOf rows k).map (fun r => r.cbm))
  have h2 := abs_round3_sub (((groupOf rows k).map (fun r => r.cbm)).sum)
  rw [abs_sub_comm] at h2
  have h3 := abs_sub_le ((((groupOf rows k).map (fun r => r.cbm)).map round2).sum)
    (((groupOf rows k).map (fun r => r.cbm)).sum)
    (round3 (((groupOf rows k).map (fun r => r.cbm)).sum))
  linarith

/-- C4 (amended) witness: one-row input, where the bound is 0.0055. -/
theorem C4_amended_witness :
    |((buildBillForGroup "540789320" (groupOf rowsVolumesW "540789320") 240 0).breakdown_items.map
        (fun i => i.cbm)).sum -
      (buildBillForGroup "540789320" (groupOf rowsVolumesW "540789320") 240 0).total_cbm| ≤
    ((buildBillForGroup "540789320" (groupOf rowsVolumesW "540789320") 240 0).breakdown_items.length : ℚ) *
        (1 / 200) + 1 / 2000 :=
  C4_amended rowsVolumesW 240 0 _ (mem_build_bills.mpr ⟨"540789320", by decide, rfl⟩)

/-- C9: for every customer group, the bill's item description states the
sum of all breakdown quantities, then the CARTON/CARTONS unit word, then
"OF" and the object: the single distinct non-empty product description
when exactly one exists, else "PERSONAL USE" (0 or several distinct
texts). -/
theorem C9_item_description (contact : String) (g : List NormalizedRow)
    (rate other : ℚ) :
    (((buildBillForGroup contact g rate other).breakdown_items.map
        (fun i => i.quantity)).sum = (g.map (fun r => r.qty)).sum) ∧
    (∀ d, productDescs g = [d] →
      (buildBillForGroup contact g rate other).item_description =
        toString ((g.map (fun r => r.qty)).sum) ++ " " ++
          (if (g.map (fun r => r.qty)).sum = 1 then "CARTON" else "CARTONS") ++
          " OF " ++ d) ∧
    ((productDescs g).length ≠ 1 →
      (buildBillForGroup contact g rate other).item_description =
        toString ((g.map (fun r => r.qty)).sum) ++ " " ++
          (if (g.map (fun r => r.qty)).sum = 1 then "CARTON" else "CARTONS") ++
          " OF " ++ "PERSONAL USE") := by
  have hq : ((g.map mkBreakdownItem).map (fun i => i.quantity)) = g.map (fun r => r.qty) := by
    rw [List.map_map]
    rfl
  have hdesc : (buildBillForGroup contact g rate other).item_description =
      toString ((g.map (fun r => r.qty)).sum) ++ " " ++
        (if (g.map (fun r => r.qty)).sum = 1 then "CARTON" else "CARTONS") ++
        " OF " ++ descObject (productDescs g) := by
    show (toString (((g.map mkBreakdownItem).map (fun i => i.quantity)).sum) ++ " " ++
        (if ((g.map mkBreakdownItem).map (fun i => i.quantity)).sum = 1
         then "CARTON" else "CARTONS") ++
        " OF " ++ descObject (productDescs g)) = _
    rw [hq]
  refine ⟨?_, ?_, ?_⟩
  · show (((g.map mkBreakdownItem).map (fun i => i.quantity)).sum = _)
    rw [hq]
  · intro d hd
    rw [hdesc, hd]
    rfl
  · intro hl
    rw [hdesc]
    have hobj : descObject (productDescs g) = "PERSONAL USE" := by
      cases hp : productDescs g with
      | nil => rfl
      | cons d t =>
        cases t with
        | nil => exact absurd (by rw [hp]; rfl) hl
        | cons d2 t2 => rfl
    rw [hobj]

/-- C9 witness: a two-row group with the single distinct description
"SHOES" and quantities 1 and 4 yields "5 CARTONS OF SHOES". -/
theorem C9_item_description_witness :
    (buildBillForGroup "540789320" groupSingleDesc 240 0).item_description =
      toString ((groupSingleDesc.map (fun r => r.qty)).sum) ++ " " ++
        (if (groupSingleDesc.map (fun r => r.qty)).sum = 1 then "CARTON" else "CARTONS") ++
        " OF " ++ "SHOES" :=
  (C9_item_description "540789320" groupSingleDesc 240 0).2.1 "SHOES" (by decide)

/-- C6: the claim fails: normalization passes negative numeric volume
cells through unchanged, so `volume_cbm` can be negative; on a sheet
whose volume cell holds -1 the surviving row has `cbm = -1 < 0`. -/
theorem C6_counterexample :
    ∃ rows : List NormalizedRow,
      load_and_prepare_rows tableNegativeCbm = Except.ok rows ∧
      ∃ r ∈ rows, r.cbm < 0 := by
  refine ⟨_, rfl, ?_⟩
  refine ⟨_, List.mem_cons_self _ _, ?_⟩
  show toNumericCoerced (Cell.num (-1)) < 0
  norm_num [toNumericCoerced]

/-- C6 (amended): `volume_cbm` is total (never null): a missing or
non-numeric volume cell coerces to 0; and it is non-negative whenever
every numeric volume cell of the sheet is non-negative — a negative
numeric cell passes through unchanged. -/
theorem C6_amended :
    (∀ s : String, toNumericCoerced (Cell.text s) = 0) ∧
    (toNumericCoerced Cell.missing = 0) ∧
    (∀ (t : RawTable) (rows : List NormalizedRow),
      load_and_prepare_rows t = Except.ok rows →
      (∀ rr ∈ t.rows, ∀ q : ℚ, rr.cbm = Cell.num q → 0 ≤ q) →
      ∀ r ∈ rows, 0 ≤ r.cbm) := by
  refine ⟨fun s => rfl, rfl, ?_⟩
  intro t rows hload hcells r hr
  rw [load_and_prepare_rows] at hload
  split at hload
  · injection hload with h2
    subst h2
    rcases List.mem_map.mp hr with ⟨rr, hrr, rfl⟩
    have hmem : rr ∈ t.rows := List.mem_of_mem_filter hrr
    show 0 ≤ toNumericCoerced rr.cbm
    cases hc : rr.cbm with
    | missing => norm_num [toNumericCoerced]
    | num q => exact hcells rr hmem q hc
    | text s => norm_num [toNumericCoerced]
  · cases hload

/-- C6 (amended) witness: on a sheet whose volume cells are missing or
non-numeric text, every surviving row has non-negative volume; shown for
the first surviving row. -/
theorem C6_amended_witness :
    0 ≤ (normalizeRow { invoice_no := none, tracking_no := some "TRK1",
                        contact := some "233", customer_name := none, location := none,
                        qty_per_tracking := none, cbm := Cell.missing,
                        product_description := none, receiving_date := none }).cbm :=
  C6_amended.2.2 tableNonNegW _ rfl
    (by
      intro rr hrr q hq
      simp only [tableNonNegW, List.mem_cons, List.not_mem_nil, or_false] at hrr
      rcases hrr with rfl | rfl <;> cases hq)
    _ (List.mem_cons_self _ _)

/-- C8: the claim fails: when the tracking-number column itself is absent
from the source, `load_and_prepare_rows` does not synthesize it — the
fallback branch is a no-op and the subscript raises, so normalization
fails even though data rows are present. -/
theorem C8_counterexample :
    load_and_prepare_rows tableNoTrackingCol = Except.error "KeyError: TRACKING N0." ∧
    tableNoTrackingCol.rows ≠ [] :=
  ⟨rfl, by decide⟩

/-- C8 (amended): provided the tracking-number column is present,
normalization always succeeds: rows lacking a tracking number are
discarded (the output is exactly the normalized tracking-bearing rows and
every output row has a tracking number), a missing contact defaults to
"UNKNOWN", a missing customer name to "UNKNOWN", and a missing location
to "ACCRA GHANA"; any other column absent from the source degrades
through these per-cell defaults rather than raising. -/
theorem C8_amended (t : RawTable) (ht : t.hasTrackingColumn = true) :
    load_and_prepare_rows t =
      Except.ok ((t.rows.filter (fun r => r.tracking_no.isSome)).map normalizeRow) ∧
    (∀ rr : RawRow, rr.contact = none → (normalizeRow rr).contact = "UNKNOWN") ∧
    (∀ rr : RawRow, rr.customer_name = none →
      (normalizeRow rr).customer_name = "UNKNOWN") ∧
    (∀ rr : RawRow, rr.location = none → (normalizeRow rr).location = "ACCRA GHANA") ∧
    (∀ rows : List NormalizedRow, load_and_prepare_rows t = Except.ok rows →
      ∀ r ∈ rows, r.tracking_no.isSome = true) := by
  have h1 : load_and_prepare_rows t =
      Except.ok ((t.rows.filter (fun r => r.tracking_no.isSome)).map normalizeRow) := by
    rw [load_and_prepare_rows, if_pos ht]
  refine ⟨h1, ?_, ?_, ?_, ?_⟩
  · intro rr h
    show rr.contact.getD "UNKNOWN" = "UNKNOWN"
    rw [h]
    rfl
  · intro rr h
    show rr.customer_name.getD "UNKNOWN" = "UNKNOWN"
    rw [h]
    rfl
  · intro rr h
    show rr.location.getD "ACCRA GHANA" = "ACCRA GHANA"
    rw [h]
    rfl
  · intro rows hload r hr
    rw [h1] at hload
    injection hload with h2
    subst h2
    rcases List.mem_map.mp hr with ⟨rr, hrr, rfl⟩
    exact (List.mem_filter.mp hrr).2

/-- C8 (amended) witness: a labelled sheet with the tracking column
present normalizes to exactly its tracking-bearing rows. -/
theorem C8_amended_witness :
    load_and_prepare_rows tableLabelledW =
      Except.ok ((tableLabelledW.rows.filter (fun r => r.tracking_no.isSome)).map
        normalizeRow) :=
  (C8_amended tableLabelledW rfl).1
